import Mathlib

/-!
Verification development for the trading repository's Strategy Decision &
Risk-Overlay Engine (`src/strategy_manager.py`, `src/trade_executor.py`).

Numeric model: Python floats are modelled as exact rationals extended with the
IEEE special values NaN and the two infinities (`PFloat`); float arithmetic is
modelled exactly (no rounding error), keeping the IEEE rules for the special
values in the operations the source uses.  A DataFrame cell is `Option PFloat`:
`none` means the column is absent from the frame, `some PFloat.nan` a NaN cell.
-/

/-- Exact model of a Python float value: a rational, or one of the IEEE
special values (NaN, +inf, -inf). -/
inductive PFloat where
  | val : ℚ → PFloat
  | pinf : PFloat
  | ninf : PFloat
  | nan : PFloat
deriving DecidableEq, Repr, Inhabited

namespace PFloat

/-- Whether the value is NaN (Python `pd.isna` / `math.isnan`). -/
def isNan : PFloat → Bool
  | nan => true
  | _ => false

/-- IEEE addition restricted to the modelled values. -/
def add : PFloat → PFloat → PFloat
  | val a, val b => val (a + b)
  | nan, _ => nan
  | _, nan => nan
  | pinf, ninf => nan
  | ninf, pinf => nan
  | pinf, _ => pinf
  | _, pinf => pinf
  | ninf, _ => ninf
  | _, ninf => ninf

/-- IEEE negation. -/
def neg : PFloat → PFloat
  | val a => val (-a)
  | pinf => ninf
  | ninf => pinf
  | nan => nan

/-- IEEE subtraction. -/
def sub (a b : PFloat) : PFloat := add a (neg b)

/-- IEEE multiplication restricted to the modelled values. -/
def mul : PFloat → PFloat → PFloat
  | val a, val b => val (a * b)
  | nan, _ => nan
  | _, nan => nan
  | pinf, pinf => pinf
  | pinf, ninf => ninf
  | ninf, pinf => ninf
  | ninf, ninf => pinf
  | pinf, val b => if 0 < b then pinf else if b < 0 then ninf else nan
  | val a, pinf => if 0 < a then pinf else if a < 0 then ninf else nan
  | ninf, val b => if 0 < b then ninf else if b < 0 then pinf else nan
  | val a, ninf => if 0 < a then ninf else if a < 0 then pinf else nan

/-- IEEE division restricted to the modelled values (x/0 is a signed infinity,
0/0 is NaN — the numpy float64 behaviour the source relies on). -/
def div : PFloat → PFloat → PFloat
  | val a, val b =>
      if b = 0 then (if 0 < a then pinf else if a < 0 then ninf else nan)
      else val (a / b)
  | nan, _ => nan
  | _, nan => nan
  | val _, pinf => val 0
  | val _, ninf => val 0
  | pinf, val b => if b < 0 then ninf else pinf
  | ninf, val b => if b < 0 then pinf else ninf
  | pinf, pinf => nan
  | pinf, ninf => nan
  | ninf, pinf => nan
  | ninf, ninf => nan

/-- IEEE strict "less than": any comparison with NaN is false. -/
def blt : PFloat → PFloat → Bool
  | val a, val b => a < b
  | nan, _ => false
  | _, nan => false
  | ninf, ninf => false
  | pinf, pinf => false
  | ninf, _ => true
  | _, pinf => true
  | pinf, _ => false
  | _, ninf => false

/-- IEEE "less or equal": any comparison with NaN is false. -/
def ble : PFloat → PFloat → Bool
  | val a, val b => a ≤ b
  | nan, _ => false
  | _, nan => false
  | ninf, _ => true
  | _, pinf => true
  | pinf, _ => false
  | _, ninf => false

/-- IEEE strict "greater than". -/
def bgt (a b : PFloat) : Bool := blt b a

/-- IEEE "greater or equal". -/
def bge (a b : PFloat) : Bool := ble b a

/-- CPython two-argument `min`: returns the second argument only when it
compares strictly smaller, so NaN in the first position propagates. -/
def pymin (a b : PFloat) : PFloat := if blt b a then b else a

/-- CPython two-argument `max`: returns the second argument only when it
compares strictly greater, so NaN in the first position propagates. -/
def pymax (a b : PFloat) : PFloat := if bgt b a then b else a

end PFloat

/-- Round a rational to the nearest integer, ties to even — the rounding used
by Python's builtin `round`. -/
def roundHalfEven (x : ℚ) : ℤ :=
  let f := ⌊x⌋
  let r := x - (f : ℚ)
  if r < 1 / 2 then f
  else if 1 / 2 < r then f + 1
  else if f % 2 = 0 then f else f + 1

/-- Python `round(x, nd)` on the exact-rational model. -/
def pyround (x : ℚ) (nd : ℕ) : ℚ := (roundHalfEven (x * 10 ^ nd) : ℚ) / 10 ^ nd

/-- Python `int(x)`: truncation toward zero, as a rational. -/
def pyint (q : ℚ) : ℚ := if q < 0 then (⌈q⌉ : ℚ) else (⌊q⌋ : ℚ)

namespace PFloat

/-- Python `round(x, nd)` lifted to the float model (NaN and infinities are
returned unchanged). -/
def roundTo (nd : ℕ) : PFloat → PFloat
  | val a => val (pyround a nd)
  | x => x

end PFloat

/-!
JSON model, for the configuration-normalization claims.  Only the features of
Python dict/truthiness semantics that `StrategyManager._normalize` uses are
modelled.
-/

/-- A JSON value as Python's `json.load` produces it. -/
inductive JValue where
  | jnull : JValue
  | jbool : Bool → JValue
  | jnum : ℚ → JValue
  | jstr : String → JValue
  | jarr : List JValue → JValue
  | jobj : List (String × JValue) → JValue

/-- Python truthiness of a JSON value (`bool(v)`). -/
def jtruthy : JValue → Bool
  | JValue.jnull => false
  | JValue.jbool b => b
  | JValue.jnum q => decide (q ≠ 0)
  | JValue.jstr s => decide (s ≠ "")
  | JValue.jarr xs => !xs.isEmpty
  | JValue.jobj fs => !fs.isEmpty

/-- Python `a or b`. -/
def pyOr (a b : JValue) : JValue := if jtruthy a then a else b

/-- Dictionary lookup (`d[k]` as an option). -/
def jget : List (String × JValue) → String → Option JValue
  | [], _ => none
  | (k, v) :: rest, key => if k = key then some v else jget rest key

/-- Python `d.get(k, default)`. -/
def dgetD (fs : List (String × JValue)) (k : String) (d : JValue) : JValue :=
  (jget fs k).getD d

/-- Python `d.get(k, {})` for a sub-mapping; a present non-mapping value is
treated as absent (in the source that shape fails the load and falls back to
the default strategy before any of the normalized fields are read). -/
def jgetObj (fs : List (String × JValue)) (k : String) : List (String × JValue) :=
  match jget fs k with
  | some (JValue.jobj g) => g
  | _ => []

/-- The `min_confidence` assignment of the legacy branch of
`StrategyManager._normalize` (strategy_manager.py lines 233-236):
`entry_cfg.get('min_confidence') or params.get('min_confidence', 60)`. -/
def legacy_min_confidence (cfg : List (String × JValue)) : JValue :=
  let params := jgetObj cfg "parameters"
  let entry_cfg := jgetObj cfg "entry_conditions"
  pyOr (dgetD entry_cfg "min_confidence" JValue.jnull)
       (dgetD params "min_confidence" (JValue.jnum 60))

/-- The `trading_pairs` assignment of the legacy branch of
`StrategyManager._normalize` (strategy_manager.py lines 217-220):
`params.get('trading_pairs') or params.get('pairs') or cfg.get('trading_pairs')
or cfg.get('pairs') or []`. -/
def legacy_trading_pairs (cfg : List (String × JValue)) : JValue :=
  let params := jgetObj cfg "parameters"
  pyOr (dgetD params "trading_pairs" JValue.jnull)
    (pyOr (dgetD params "pairs" JValue.jnull)
      (pyOr (dgetD cfg "trading_pairs" JValue.jnull)
        (pyOr (dgetD cfg "pairs" JValue.jnull) (JValue.jarr []))))

/-!
Normalized configuration and data model.
-/

/-- The `scoring` sub-dictionary of the normalized config; each field is
`none` when the strategy JSON omits the key (the per-use-site defaults of
`w(key, default)` then apply). -/
structure Scoring where
  ma_cross : Option ℚ
  ma_cross_bonus : Option ℚ
  rsi : Option ℚ
  macd : Option ℚ
  macd_cross_bonus : Option ℚ
  bollinger_bands : Option ℚ
  stochastic : Option ℚ
  momentum : Option ℚ
  lim_bonus : Option ℚ
deriving DecidableEq, Repr, Inhabited

/-- The drawdown-recovery-engine keys `dre_l{1,2,3}_thresh` /
`dre_l{1,2,3}_mult`; present in the normalized dict only for the advanced
schema, hence bundled behind an `Option` in `NormCfg`. -/
structure DreCfg where
  l1 : ℚ
  l2 : ℚ
  l3 : ℚ
  m1 : ℚ
  m2 : ℚ
  m3 : ℚ
deriving DecidableEq, Repr, Inhabited

/-- The slice of the normalized parameter dict `self._norm` read by the
functions modelled here.  Fields that `_normalize` always sets are plain;
fields only present for one schema (read through `n.get(key, default)` in the
source) are `Option` with the source's default applied at each use site. -/
structure NormCfg where
  min_confidence : ℚ
  rsi_oversold : ℚ
  rsi_overbought : ℚ
  scoring : Scoring
  lim_enabled : Bool
  lim_tick_weight : ℚ
  lim_volume_weight : ℚ
  lim_body_weight : ℚ
  lim_spread_weight : ℚ
  lim_micro_atr_weight : ℚ
  lim_strong_threshold : Option ℚ
  lim_extreme_threshold : Option ℚ
  lim_risk_reduction : Option ℚ
  dre : Option DreCfg
  leverage_enabled : Bool
  vol_percentile_window : Option ℕ
  leverage_extreme_mult : Option ℚ
  leverage_low_vol_mult : Option ℚ
  spread_filter_enabled : Bool
  max_spread_multiplier : Option ℚ
  weekend_shield_enabled : Bool
  weekend_hours_before : Option ℤ
  news_block_enabled : Bool
  use_atr_exit : Bool
  atr_multiplier_sl : ℚ
  atr_multiplier_tp : ℚ
  stop_loss_pips : ℚ
  take_profit_pips : ℚ
deriving DecidableEq, Repr, Inhabited

/-- One row of the DataFrame after `calculate_indicators` has run: the close
price plus the indicator columns.  `none` models an absent column, `some
PFloat.nan` a NaN cell. -/
structure AugBar where
  close : ℚ
  emaFast : Option PFloat
  emaSlow : Option PFloat
  maFast : Option PFloat
  maSlow : Option PFloat
  rsi : Option PFloat
  macd : Option PFloat
  macdSignal : Option PFloat
  bbUpper : Option PFloat
  bbLower : Option PFloat
  stochK : Option PFloat
  momentum : Option PFloat
  atr : Option PFloat
  volume : Option PFloat
  volumePct : Option PFloat
  body_ratio : Option PFloat
deriving DecidableEq, Repr, Inhabited

/-- The signal dictionary returned by `StrategyManager.analyze` (the fields
the claims are about; bookkeeping entries such as timestamp and the indicator
echo are omitted). -/
structure Signal where
  action : String
  confidence : ℚ
  price : ℚ
  stop_loss : Option PFloat
  take_profit : Option PFloat
  lim_score : PFloat
  dd_multiplier : ℚ
  vol_multiplier : ℚ
  risk_multiplier : ℚ
  hold_reason : String
deriving DecidableEq, Repr, Inhabited

/-!
RSI (`StrategyManager._calc_rsi`), over a raw price list.
-/

/-- `prices.diff()`: first entry NaN, then successive differences. -/
def diffP (prices : List ℚ) : List PFloat :=
  (List.range prices.length).map (fun i =>
    if i = 0 then PFloat.nan
    else PFloat.val (prices.getD i 0 - prices.getD (i - 1) 0))

/-- Sum of a list of float values. -/
def sumP (xs : List PFloat) : PFloat := xs.foldl PFloat.add (PFloat.val 0)

/-- The trailing window of length `p` ending at index `i`. -/
def windowAt (p : ℕ) (xs : List PFloat) (i : ℕ) : List PFloat :=
  (xs.take (i + 1)).drop (i + 1 - p)

/-- `series.rolling(p).mean()`: NaN until the window is full (pandas default
`min_periods = p`), then the mean of the window (NaN-poisoned through the
float addition if the window holds a NaN). -/
def rollingMeanP (p : ℕ) (xs : List PFloat) : List PFloat :=
  (List.range xs.length).map (fun i =>
    if i + 1 < p then PFloat.nan
    else PFloat.div (sumP (windowAt p xs i)) (PFloat.val p))

/-- `delta.where(delta > 0, 0).rolling(period).mean()` — the average-gain
series of `_calc_rsi` (the leading NaN delta compares false, so becomes 0). -/
def rsi_gain_series (prices : List ℚ) (period : ℕ) : List PFloat :=
  rollingMeanP period
    ((diffP prices).map (fun d => if PFloat.blt (PFloat.val 0) d then d else PFloat.val 0))

/-- `(-delta.where(delta < 0, 0)).rolling(period).mean()` — the average-loss
series of `_calc_rsi`. -/
def rsi_loss_series (prices : List ℚ) (period : ℕ) : List PFloat :=
  rollingMeanP period
    ((diffP prices).map (fun d =>
      if PFloat.blt d (PFloat.val 0) then PFloat.neg d else PFloat.val 0))

/-- `StrategyManager._calc_rsi` (strategy_manager.py lines 377-382):
`rs = gain / loss; 100 - (100 / (1 + rs))`, in float semantics. -/
def _calc_rsi (prices : List ℚ) (period : ℕ) : List PFloat :=
  List.zipWith
    (fun g l =>
      PFloat.sub (PFloat.val 100)
        (PFloat.div (PFloat.val 100) (PFloat.add (PFloat.val 1) (PFloat.div g l))))
    (rsi_gain_series prices period) (rsi_loss_series prices period)

/-!
Scoring (`StrategyManager._evaluate_conditions`).
-/

/-- One fast/slow pair of the trend-cross loop: scores only when both columns
exist and both latest values are non-NaN (otherwise the loop falls through to
the next pair — the `break` sits inside the non-NaN branch). -/
def tryTrendPair (sc : Scoring) (fv sv : Option PFloat) (pf ps : PFloat) :
    Option (ℚ × ℚ) :=
  match fv, sv with
  | some f, some s =>
      if f.isNan ∨ s.isNan then none
      else if PFloat.blt s f then
        some (sc.ma_cross.getD 25 +
          (if PFloat.ble pf ps then sc.ma_cross_bonus.getD 8 else 0), 0)
      else
        some (0, sc.ma_cross.getD 25 +
          (if PFloat.bge pf ps then sc.ma_cross_bonus.getD 8 else 0))
  | _, _ => none

/-- Component 1 of `_evaluate_conditions`: EMA pair first, then MA pair.  The
previous row's values are read with `prev.get(col, 0)`. -/
def trendComponent (sc : Scoring) (latest prev : AugBar) : ℚ × ℚ :=
  match tryTrendPair sc latest.emaFast latest.emaSlow
      (prev.emaFast.getD (PFloat.val 0)) (prev.emaSlow.getD (PFloat.val 0)) with
  | some r => r
  | none =>
      match tryTrendPair sc latest.maFast latest.maSlow
          (prev.maFast.getD (PFloat.val 0)) (prev.maSlow.getD (PFloat.val 0)) with
      | some r => r
      | none => (0, 0)

/-- Component 2 of `_evaluate_conditions`: RSI with oversold/overbought
thresholds and a 40%-weight lean split at 50. -/
def rsiComponent (cfg : NormCfg) (latest : AugBar) : ℚ × ℚ :=
  match latest.rsi with
  | some r =>
      if r.isNan then (0, 0)
      else
        let s := cfg.scoring.rsi.getD 20
        if PFloat.blt r (PFloat.val cfg.rsi_oversold) then (s, 0)
        else if PFloat.blt (PFloat.val cfg.rsi_overbought) r then (0, s)
        else if PFloat.blt r (PFloat.val 50) then (pyint (s * (2 / 5)), 0)
        else (0, pyint (s * (2 / 5)))
  | none => (0, 0)

/-- Component 3 of `_evaluate_conditions`: MACD against its signal line, with
a crossing bonus read from the previous row via `prev.get(col, 0)`. -/
def macdComponent (sc : Scoring) (latest prev : AugBar) : ℚ × ℚ :=
  match latest.macd, latest.macdSignal with
  | some m, some ms =>
      if m.isNan ∨ ms.isNan then (0, 0)
      else
        let s := sc.macd.getD 20
        let b := sc.macd_cross_bonus.getD 8
        if PFloat.blt ms m then
          (s + (if PFloat.ble (prev.macd.getD (PFloat.val 0))
                  (prev.macdSignal.getD (PFloat.val 0)) then b else 0), 0)
        else
          (0, s + (if PFloat.bge (prev.macd.getD (PFloat.val 0))
                  (prev.macdSignal.getD (PFloat.val 0)) then b else 0))
  | _, _ => (0, 0)

/-- Component 4 of `_evaluate_conditions`: Bollinger bands (the source guards
only `bb_upper` against NaN; a NaN `bb_lower` just fails the `<`). -/
def bollingerComponent (sc : Scoring) (latest : AugBar) : ℚ × ℚ :=
  match latest.bbUpper, latest.bbLower with
  | some u, some l =>
      if u.isNan then (0, 0)
      else
        let s := sc.bollinger_bands.getD 15
        if PFloat.blt (PFloat.val latest.close) l then (s, 0)
        else if PFloat.blt u (PFloat.val latest.close) then (0, s)
        else (0, 0)
  | _, _ => (0, 0)

/-- Component 5 of `_evaluate_conditions`: Stochastic %K (legacy only). -/
def stochComponent (sc : Scoring) (latest : AugBar) : ℚ × ℚ :=
  match latest.stochK with
  | some k =>
      if k.isNan then (0, 0)
      else
        let s := sc.stochastic.getD 12
        if PFloat.blt k (PFloat.val 20) then (s, 0)
        else if PFloat.blt (PFloat.val 80) k then (0, s)
        else (0, 0)
  | none => (0, 0)

/-- Component 6 of `_evaluate_conditions`: 5-bar momentum sign. -/
def momentumComponent (sc : Scoring) (latest : AugBar) : ℚ × ℚ :=
  match latest.momentum with
  | some m =>
      if m.isNan then (0, 0)
      else
        let s := sc.momentum.getD 10
        if PFloat.blt (PFloat.val 0) m then (s, 0) else (0, s)
  | none => (0, 0)

/-- `StrategyManager._evaluate_conditions` (strategy_manager.py lines
711-796): the six additive components, returning (buy_score, sell_score). -/
def _evaluate_conditions (cfg : NormCfg) (latest prev : AugBar) : ℚ × ℚ :=
  let t := trendComponent cfg.scoring latest prev
  let r := rsiComponent cfg latest
  let m := macdComponent cfg.scoring latest prev
  let b := bollingerComponent cfg.scoring latest
  let st := stochComponent cfg.scoring latest
  let mo := momentumComponent cfg.scoring latest
  (t.1 + r.1 + m.1 + b.1 + st.1 + mo.1, t.2 + r.2 + m.2 + b.2 + st.2 + mo.2)

/-!
Risk-overlay engines.
-/

/-- Mean skipping NaN (pandas `Series.mean`); NaN when no numeric value. -/
def nanMean (vals : List PFloat) : PFloat :=
  let qs := vals.filterMap (fun c =>
    match c with
    | PFloat.val q => some q
    | _ => none)
  if qs.isEmpty then PFloat.nan
  else PFloat.val ((qs.foldl (· + ·) 0) / (qs.length : ℚ))

/-- `df['atr'].rolling(20).max().iloc[-1]`: NaN unless the frame has at least
20 rows whose `atr` cells are all numeric (pandas `min_periods` equals the
window), else the maximum of the last 20. -/
def rollingMax20Atr (rows : List AugBar) : PFloat :=
  if rows.length < 20 then PFloat.nan
  else
    let cells := (rows.drop (rows.length - 20)).map (·.atr)
    let qs := cells.filterMap (fun c =>
      match c with
      | some (PFloat.val q) => some q
      | _ => none)
    if qs.length = cells.length then PFloat.val (qs.foldl max (qs.headD 0))
    else PFloat.nan

/-- Final clamp of the liquidity score:
`round(min(max(score, 0.0), 1.0), 4)`. -/
def limClamp (score : PFloat) : PFloat :=
  PFloat.roundTo 4 (PFloat.pymin (PFloat.pymax score (PFloat.val 0)) (PFloat.val 1))

/-- The weighted-sum accumulation of
`StrategyManager.compute_liquidity_imbalance_score` before the final clamp:
volume spike, volume percentile, body/range ratio, spread-vs-ATR and
micro-ATR terms. -/
def lim_raw_score (cfg : NormCfg) (rows : List AugBar)
    (current_spread : ℚ) : PFloat :=
  let latest := rows.getD (rows.length - 1) default
    let last20 := rows.drop (rows.length - 20)
    let s1 : PFloat :=
      match latest.volume with
      | some v =>
          let avg := nanMean (last20.filterMap (·.volume))
          PFloat.mul
            (PFloat.div
              (PFloat.pymin (PFloat.div v (PFloat.pymax avg (PFloat.val 1)))
                (PFloat.val 3))
              (PFloat.val 3))
            (PFloat.val cfg.lim_volume_weight)
      | none => PFloat.val 0
    let s2 : PFloat :=
      PFloat.mul (latest.volumePct.getD (PFloat.val (1 / 2)))
        (PFloat.val cfg.lim_tick_weight)
    let s3 : PFloat :=
      PFloat.mul
        (PFloat.pymin (latest.body_ratio.getD (PFloat.val (1 / 2))) (PFloat.val 1))
        (PFloat.val cfg.lim_body_weight)
    let s4 : PFloat :=
      match latest.atr with
      | some a =>
          if ¬a.isNan ∧ PFloat.blt (PFloat.val 0) a then
            PFloat.mul
              (PFloat.pymax (PFloat.val 0)
                (PFloat.sub (PFloat.val 1) (PFloat.div (PFloat.val current_spread) a)))
              (PFloat.val cfg.lim_spread_weight)
          else PFloat.mul (PFloat.val (1 / 2)) (PFloat.val cfg.lim_spread_weight)
      | none => PFloat.mul (PFloat.val (1 / 2)) (PFloat.val cfg.lim_spread_weight)
    let s5 : PFloat :=
      match latest.atr with
      | some a =>
          if ¬a.isNan then
            let amax := rollingMax20Atr rows
            PFloat.mul
              (PFloat.sub (PFloat.val 1)
                (PFloat.pymin
                  (PFloat.div a (PFloat.pymax amax (PFloat.val (1 / 1000000000))))
                  (PFloat.val 1)))
              (PFloat.val cfg.lim_micro_atr_weight)
          else PFloat.mul (PFloat.val (1 / 2)) (PFloat.val cfg.lim_micro_atr_weight)
      | none => PFloat.mul (PFloat.val (1 / 2)) (PFloat.val cfg.lim_micro_atr_weight)
    PFloat.add (PFloat.add (PFloat.add (PFloat.add (PFloat.add (PFloat.val 0) s1) s2) s3) s4)
      s5

/-- `StrategyManager.compute_liquidity_imbalance_score` (strategy_manager.py
lines 413-459): 0.5 when the model is off or fewer than 5 rows exist,
otherwise the weighted sum clamped by `round(min(max(score, 0), 1), 4)`. -/
def compute_liquidity_imbalance_score (cfg : NormCfg) (rows : List AugBar)
    (current_spread : ℚ) : PFloat :=
  if ¬cfg.lim_enabled ∨ rows.length < 5 then PFloat.val (1 / 2)
  else limClamp (lim_raw_score cfg rows current_spread)

/-- `StrategyManager.compute_drawdown_risk_multiplier` (strategy_manager.py
lines 461-484). -/
def compute_drawdown_risk_multiplier (cfg : NormCfg)
    (current_equity peak_equity : ℚ) : ℚ :=
  match cfg.dre with
  | none => 1
  | some d =>
      if peak_equity ≤ 0 then 1
      else
        let dd := (peak_equity - current_equity) / peak_equity
        if dd ≥ d.l3 then d.m3
        else if dd ≥ d.l2 then d.m2
        else if dd ≥ d.l1 then d.m1
        else 1

/-- `StrategyManager.compute_volatility_risk_multiplier` (strategy_manager.py
lines 486-518): ATR percentile against a trailing window.  The `atr` column is
always produced by `calculate_indicators`, so the column-presence guard is
vacuous here; `dropna` becomes a `filterMap` on numeric cells. -/
def compute_volatility_risk_multiplier (cfg : NormCfg) (rows : List AugBar) : ℚ :=
  if ¬cfg.leverage_enabled then 1
  else
    let series := rows.filterMap (fun r =>
      match r.atr with
      | some (PFloat.val q) => some q
      | _ => none)
    if series.length < 10 then 1
    else
      let current := series.getLastD 0
      let k := min (cfg.vol_percentile_window.getD 60) series.length
      let rolling := if k = 0 then series else series.drop (series.length - k)
      let percentile : ℚ :=
        ((rolling.countP (fun a => decide (a < current))) : ℚ) / (rolling.length : ℚ)
      if percentile > 4 / 5 then cfg.leverage_extreme_mult.getD (1 / 2)
      else if percentile < 3 / 10 then cfg.leverage_low_vol_mult.getD (7 / 10)
      else 1

/-- `StrategyManager.check_spread_filter` (strategy_manager.py lines 520-539):
`false` blocks the trade. -/
def check_spread_filter (cfg : NormCfg) (current_spread : ℚ)
    (rows : List AugBar) : Bool :=
  if ¬cfg.spread_filter_enabled then true
  else
    match (rows.getD (rows.length - 1) default).atr with
    | some (PFloat.val a) =>
        if a ≤ 0 then true
        else ¬(current_spread > a * cfg.max_spread_multiplier.getD (9 / 5))
    | _ => true

/-- `StrategyManager.check_weekend_shield` (strategy_manager.py lines
541-559), with the wall clock supplied as `weekday` (Monday = 0) and `hour`:
`false` blocks new trades. -/
def check_weekend_shield (cfg : NormCfg) (weekday : ℕ) (hour : ℤ) : Bool :=
  if ¬cfg.weekend_shield_enabled then true
  else if weekday = 5 ∨ weekday = 6 then false
  else if weekday = 4 ∧ 22 - hour ≤ cfg.weekend_hours_before.getD 4 then false
  else true

/-- `StrategyManager.check_news_block` (strategy_manager.py lines 561-600):
the news-table query is external; `newsHit` supplies its outcome ("a
high-impact event for the symbol's currencies lies in the window"); a missing
database or a query error count as no hit.  `false` blocks the trade. -/
def check_news_block (cfg : NormCfg) (newsHit : Bool) : Bool :=
  if ¬cfg.news_block_enabled then true else ¬newsHit

/-!
Main analysis (`StrategyManager.analyze`) and exit levels.
-/

/-- The liquidity-imbalance score adjustment applied to the raw scores inside
`analyze` (strategy_manager.py lines 651-666). -/
def lim_adjust (cfg : NormCfg) (lim_score : PFloat) (bs : ℚ × ℚ) : ℚ × ℚ :=
  if ¬cfg.lim_enabled then bs
  else if PFloat.bge lim_score (PFloat.val (cfg.lim_extreme_threshold.getD (4 / 5))) then
    (pyint (bs.1 * cfg.lim_risk_reduction.getD (7 / 10)),
     pyint (bs.2 * cfg.lim_risk_reduction.getD (7 / 10)))
  else if PFloat.bge lim_score (PFloat.val (cfg.lim_strong_threshold.getD (3 / 5))) then
    match lim_score with
    | PFloat.val q =>
        (bs.1 + pyint (cfg.scoring.lim_bonus.getD 0 * q),
         bs.2 + pyint (cfg.scoring.lim_bonus.getD 0 * q))
    | _ => (bs.1 + 0, bs.2 + 0)
  else bs

/-- The buy/sell scores of `analyze` after the liquidity adjustment: raw
`_evaluate_conditions` on the last two rows, then `lim_adjust`. -/
def adjusted_scores (cfg : NormCfg) (rows : List AugBar)
    (current_spread : ℚ) : ℚ × ℚ :=
  let latest := rows.getD (rows.length - 1) default
  let prev := rows.getD (rows.length - 2) default
  lim_adjust cfg (compute_liquidity_imbalance_score cfg rows current_spread)
    (_evaluate_conditions cfg latest prev)

/-- Substring test on character lists. -/
def listHasSub (n h : List Char) : Bool :=
  (List.range (h.length + 1)).any (fun i => n.isPrefixOf (h.drop i))

/-- Python `needle in haystack` for strings. -/
def strHasSub (n h : String) : Bool := listHasSub n.toList h.toList

/-- The per-instrument pip size of `_exit_levels` (strategy_manager.py lines
807-813). -/
def pip_value (symbol : String) : ℚ :=
  let s := symbol.toUpper
  if strHasSub "XAU" s ∨ strHasSub "GOLD" s then 1 / 100
  else if strHasSub "JPY" s then 1 / 100
  else 1 / 10000

/-- `StrategyManager._exit_levels` (strategy_manager.py lines 802-832):
(stop_loss, take_profit), ATR-based when enabled and ATR is a non-NaN cell,
otherwise fixed pips; every level is passed through `round(x, 5)`. -/
def _exit_levels (cfg : NormCfg) (symbol : String) (entry : ℚ) (action : String)
    (latest : AugBar) : PFloat × PFloat :=
  let pv := pip_value symbol
  let go : PFloat → PFloat → PFloat × PFloat := fun sl_dist tp_dist =>
    if action = "BUY" then
      (PFloat.roundTo 5 (PFloat.sub (PFloat.val entry) sl_dist),
       PFloat.roundTo 5 (PFloat.add (PFloat.val entry) tp_dist))
    else
      (PFloat.roundTo 5 (PFloat.add (PFloat.val entry) sl_dist),
       PFloat.roundTo 5 (PFloat.sub (PFloat.val entry) tp_dist))
  match latest.atr with
  | some a =>
      if cfg.use_atr_exit ∧ ¬a.isNan then
        go (PFloat.mul a (PFloat.val cfg.atr_multiplier_sl))
           (PFloat.mul a (PFloat.val cfg.atr_multiplier_tp))
      else
        go (PFloat.val (cfg.stop_loss_pips * pv))
           (PFloat.val (cfg.take_profit_pips * pv))
  | none =>
      go (PFloat.val (cfg.stop_loss_pips * pv))
         (PFloat.val (cfg.take_profit_pips * pv))

/-- `StrategyManager._hold` (strategy_manager.py lines 860-867): the HOLD
signal, with neutral multipliers. -/
def _hold (price : ℚ) (reason : String) : Signal :=
  { action := "HOLD", confidence := 0, price := price, stop_loss := none,
    take_profit := none, lim_score := PFloat.val 0, dd_multiplier := 1,
    vol_multiplier := 1, risk_multiplier := 1, hold_reason := reason }

/-- `StrategyManager.analyze` (strategy_manager.py lines 612-700), modelled
after `calculate_indicators` has produced the augmented rows.  The wall clock
(for the weekend shield) and the news-table query outcome are supplied as
`weekday`/`hour`/`newsHit`. -/
def analyze (cfg : NormCfg) (symbol : String) (rows : List AugBar)
    (current_spread current_equity peak_equity : ℚ) (weekday : ℕ) (hour : ℤ)
    (newsHit : Bool) : Signal :=
  if rows.length < 2 then _hold (rows.getD (rows.length - 1) default).close ""
  else
    let latest := rows.getD (rows.length - 1) default
    if ¬check_weekend_shield cfg weekday hour then
      _hold latest.close "weekend_shield"
    else if ¬check_news_block cfg newsHit then
      _hold latest.close "news_block"
    else if ¬check_spread_filter cfg current_spread rows then
      _hold latest.close "spread_too_wide"
    else
      let bs := adjusted_scores cfg rows current_spread
      let lim_score := compute_liquidity_imbalance_score cfg rows current_spread
      let dd_mult :=
        if current_equity > 0 ∧ peak_equity > 0 then
          compute_drawdown_risk_multiplier cfg current_equity peak_equity
        else 1
      let vol_mult := compute_volatility_risk_multiplier cfg rows
      let base : Signal :=
        { action := "HOLD", confidence := 0, price := latest.close,
          stop_loss := none, take_profit := none, lim_score := lim_score,
          dd_multiplier := dd_mult, vol_multiplier := vol_mult,
          risk_multiplier := dd_mult * vol_mult, hold_reason := "" }
      if bs.1 > bs.2 ∧ bs.1 ≥ cfg.min_confidence then
        let lv := _exit_levels cfg symbol latest.close "BUY" latest
        { base with action := "BUY", confidence := bs.1,
                    stop_loss := some lv.1, take_profit := some lv.2 }
      else if bs.2 > bs.1 ∧ bs.2 ≥ cfg.min_confidence then
        let lv := _exit_levels cfg symbol latest.close "SELL" latest
        { base with action := "SELL", confidence := bs.2,
                    stop_loss := some lv.1, take_profit := some lv.2 }
      else base

/-!
Position sizing (`TradeExecutor.calculate_position_size`, trade_executor.py
lines 183-252) — the risk-fraction computation, which is what the sizing
claim is about (the final lot conversion divides `balance * risk_pct` by the
broker's tick economics).
-/

/-- The `anti_martingale_progression` sub-config of the strategy's
`unique_features` block (`none` models an absent or empty dict, which the
source's `if am:` skips). -/
structure AmCfg where
  consecutive_wins_trigger : Option ℚ
  position_size_increase : Option ℚ
  max_position_size_multiplier : Option ℚ
  recovery_extra_risk_after_loss : Option ℚ
deriving DecidableEq, Repr, Inhabited

/-- The confidence-tier base risk fraction (trade_executor.py lines
193-199). -/
def base_risk_pct (rmin rmax confidence : ℚ) : ℚ :=
  if confidence ≥ 80 then rmax
  else if confidence ≥ 65 then (rmin + rmax) / 2
  else rmin

/-- The anti-martingale adjustment (trade_executor.py lines 202-219). -/
def anti_martingale_adjust (am : Option AmCfg) (wins losses : ℕ) (risk : ℚ) : ℚ :=
  match am with
  | none => risk
  | some a =>
      let trigger := a.consecutive_wins_trigger.getD 3
      let increase := a.position_size_increase.getD (1 / 2)
      let maxm := a.max_position_size_multiplier.getD 4
      let recovery := a.recovery_extra_risk_after_loss.getD 0
      let r1 :=
        if (wins : ℚ) ≥ trigger then
          risk * min (1 + increase * ((wins : ℚ) - trigger + 1)) maxm
        else risk
      if losses > 0 ∧ recovery > 0 then r1 + recovery else r1

/-- The final risk fraction of `calculate_position_size` (trade_executor.py
lines 192-226): tiered base, anti-martingale, the signal's risk multiplier,
then the hard cap `min(risk_pct, risk_per_trade_max)`. -/
def calculate_position_size_risk (rmin rmax confidence : ℚ) (am : Option AmCfg)
    (wins losses : ℕ) (risk_multiplier : ℚ) : ℚ :=
  min (anti_martingale_adjust am wins losses (base_risk_pct rmin rmax confidence)
        * risk_multiplier) rmax

/-- Sum of the scoring weights at their use-site defaults, cross bonuses and
the liquidity bonus included — the bound of the score-bound property. -/
def scoringWeightSum (sc : Scoring) : ℚ :=
  sc.ma_cross.getD 25 + sc.ma_cross_bonus.getD 8 + sc.rsi.getD 20 +
  sc.macd.getD 20 + sc.macd_cross_bonus.getD 8 + sc.bollinger_bands.getD 15 +
  sc.stochastic.getD 12 + sc.momentum.getD 10 + sc.lim_bonus.getD 0

/-!
Claim C1 — legacy minimum-confidence normalization.
-/

/-- Legacy document whose `entry_conditions.min_confidence` is the fraction
0.6. -/
def c1doc : List (String × JValue) :=
  [("entry_conditions", JValue.jobj [("min_confidence", JValue.jnum (3 / 5))])]

/-- Claim C1 (counterexample): on a legacy document with
`entry_conditions.min_confidence = 0.6`, `_normalize` stores 0.6 verbatim —
not 60 as the claim asserts. -/
theorem C1_min_confidence_counterexample :
    legacy_min_confidence c1doc = JValue.jnum (3 / 5) ∧
    JValue.jnum (3 / 5) ≠ JValue.jnum 60 := by
  constructor
  · simp [legacy_min_confidence, c1doc, jgetObj, jget, dgetD, pyOr, jtruthy]
  · intro h
    injection h with h
    norm_num at h

/-- Claim C1 (amended): normalization stores the configured minimum-confidence
value verbatim, with no rescaling to the 0-100 scale: a truthy
`entry_conditions.min_confidence` wins as-is (so the fraction 0.6 stays 0.6),
otherwise `parameters.min_confidence` with default 60 is used. -/
theorem C1_min_confidence_amended (cfg : List (String × JValue)) :
    (∀ v, jget (jgetObj cfg "entry_conditions") "min_confidence" = some v →
      jtruthy v = true → legacy_min_confidence cfg = v) ∧
    (∀ v, jget (jgetObj cfg "entry_conditions") "min_confidence" = some v →
      jtruthy v = false →
      legacy_min_confidence cfg =
        dgetD (jgetObj cfg "parameters") "min_confidence" (JValue.jnum 60)) ∧
    (jget (jgetObj cfg "entry_conditions") "min_confidence" = none →
      legacy_min_confidence cfg =
        dgetD (jgetObj cfg "parameters") "min_confidence" (JValue.jnum 60)) := by
  refine ⟨?_, ?_, ?_⟩
  · intro v hv ht
    simp [legacy_min_confidence, dgetD, hv, pyOr, ht]
  · intro v hv ht
    simp [legacy_min_confidence, dgetD, hv, pyOr, ht]
  · intro hv
    simp [legacy_min_confidence, dgetD, hv, pyOr, jtruthy]

/-- Claim C1 (witness): the amended statement evaluated on the concrete 0.6
document. -/
theorem C1_min_confidence_witness :
    legacy_min_confidence c1doc = JValue.jnum (3 / 5) :=
  (C1_min_confidence_amended c1doc).1 (JValue.jnum (3 / 5))
    (by simp [c1doc, jgetObj, jget]) (by simp [jtruthy])

/-!
Claim C2 — legacy symbol/pair extraction.
-/

/-- Legacy document with a direct `pairs` list and a different
`parameters.trading_pairs` list. -/
def c2doc : List (String × JValue) :=
  [("pairs", JValue.jarr [JValue.jstr "EURUSD"]),
   ("parameters", JValue.jobj [("trading_pairs", JValue.jarr [JValue.jstr "GBPUSD"])])]

/-- Legacy document that configures its instruments only under `symbols`. -/
def c2doc_symbols : List (String × JValue) :=
  [("symbols", JValue.jarr [JValue.jstr "XAUUSD"])]

/-- Claim C2 (counterexample): the source tries `parameters.trading_pairs`
before the direct `pairs` field, so the nested list wins — the claim's order
(direct `pairs` first) is wrong; a document using only `symbols` yields the
silent empty-list fallback, not that list and not an explicit signal. -/
theorem C2_trading_pairs_counterexample :
    legacy_trading_pairs c2doc = JValue.jarr [JValue.jstr "GBPUSD"] ∧
    JValue.jarr [JValue.jstr "GBPUSD"] ≠ JValue.jarr [JValue.jstr "EURUSD"] ∧
    legacy_trading_pairs c2doc_symbols = JValue.jarr [] := by
  refine ⟨?_, ?_, ?_⟩
  · simp [legacy_trading_pairs, c2doc, jgetObj, jget, dgetD, pyOr, jtruthy]
  · intro h
    injection h with h
    simp at h
  · simp [legacy_trading_pairs, c2doc_symbols, jgetObj, jget, dgetD, pyOr, jtruthy]

/-- Claim C2 (amended): pair extraction tries, in this order,
`parameters.trading_pairs`, `parameters.pairs`, the top-level `trading_pairs`,
then the top-level `pairs`; the first truthy (non-empty) value wins; a
`symbols` field is never consulted; when none is truthy the result is the
empty list (callers see `[]`, no explicit no-symbols signal). -/
theorem C2_trading_pairs_amended (cfg : List (String × JValue)) :
    (jtruthy (dgetD (jgetObj cfg "parameters") "trading_pairs" JValue.jnull) = true →
      legacy_trading_pairs cfg =
        dgetD (jgetObj cfg "parameters") "trading_pairs" JValue.jnull) ∧
    (jtruthy (dgetD (jgetObj cfg "parameters") "trading_pairs" JValue.jnull) = false →
      jtruthy (dgetD (jgetObj cfg "parameters") "pairs" JValue.jnull) = true →
      legacy_trading_pairs cfg =
        dgetD (jgetObj cfg "parameters") "pairs" JValue.jnull) ∧
    (jtruthy (dgetD (jgetObj cfg "parameters") "trading_pairs" JValue.jnull) = false →
      jtruthy (dgetD (jgetObj cfg "parameters") "pairs" JValue.jnull) = false →
      jtruthy (dgetD cfg "trading_pairs" JValue.jnull) = true →
      legacy_trading_pairs cfg = dgetD cfg "trading_pairs" JValue.jnull) ∧
    (jtruthy (dgetD (jgetObj cfg "parameters") "trading_pairs" JValue.jnull) = false →
      jtruthy (dgetD (jgetObj cfg "parameters") "pairs" JValue.jnull) = false →
      jtruthy (dgetD cfg "trading_pairs" JValue.jnull) = false →
      jtruthy (dgetD cfg "pairs" JValue.jnull) = true →
      legacy_trading_pairs cfg = dgetD cfg "pairs" JValue.jnull) ∧
    (jtruthy (dgetD (jgetObj cfg "parameters") "trading_pairs" JValue.jnull) = false →
      jtruthy (dgetD (jgetObj cfg "parameters") "pairs" JValue.jnull) = false →
      jtruthy (dgetD cfg "trading_pairs" JValue.jnull) = false →
      jtruthy (dgetD cfg "pairs" JValue.jnull) = false →
      legacy_trading_pairs cfg = JValue.jarr []) := by
  refine ⟨?_, ?_, ?_, ?_, ?_⟩ <;>
    intro h1 <;> try intro h2 <;> try intro h3 <;> try intro h4
  all_goals simp_all [legacy_trading_pairs, pyOr]

/-- Claim C2 (witness): the amended order evaluated on the concrete document —
`parameters.trading_pairs` wins over the direct `pairs`. -/
theorem C2_trading_pairs_witness :
    legacy_trading_pairs c2doc = JValue.jarr [JValue.jstr "GBPUSD"] := by
  have h := (C2_trading_pairs_amended c2doc).1
    (by simp [c2doc, jgetObj, jget, dgetD, jtruthy])
  rw [h]
  simp [c2doc, jgetObj, jget, dgetD]

/-!
Claim C3 — drawdown recovery multiplier.
-/

/-- Claim C3: with ordered thresholds and non-increasing multipliers at most
1, `compute_drawdown_risk_multiplier` is 1.0 strictly below the first
threshold, returns the multiplier of the highest threshold crossed (never a
sum), and is a non-increasing step function of the drawdown fraction. -/
theorem C3_drawdown_multiplier (cfg : NormCfg) (d : DreCfg) (hd : cfg.dre = some d)
    (peak : ℚ) (hpk : 0 < peak)
    (h12 : d.l1 ≤ d.l2) (h23 : d.l2 ≤ d.l3)
    (hm21 : d.m2 ≤ d.m1) (hm32 : d.m3 ≤ d.m2) (hm1 : d.m1 ≤ 1) :
    (∀ cur, (peak - cur) / peak < d.l1 →
      compute_drawdown_risk_multiplier cfg cur peak = 1) ∧
    (∀ cur, d.l3 ≤ (peak - cur) / peak →
      compute_drawdown_risk_multiplier cfg cur peak = d.m3) ∧
    (∀ cur, d.l2 ≤ (peak - cur) / peak → (peak - cur) / peak < d.l3 →
      compute_drawdown_risk_multiplier cfg cur peak = d.m2) ∧
    (∀ cur, d.l1 ≤ (peak - cur) / peak → (peak - cur) / peak < d.l2 →
      compute_drawdown_risk_multiplier cfg cur peak = d.m1) ∧
    (∀ c1 c2, c2 ≤ c1 →
      compute_drawdown_risk_multiplier cfg c2 peak ≤
        compute_drawdown_risk_multiplier cfg c1 peak) := by
  have hpk' : ¬peak ≤ 0 := not_le.mpr hpk
  refine ⟨?_, ?_, ?_, ?_, ?_⟩
  · intro cur h
    unfold compute_drawdown_risk_multiplier
    rw [hd]
    simp only [hpk', if_false]
    split_ifs <;> linarith
  · intro cur h
    unfold compute_drawdown_risk_multiplier
    rw [hd]
    simp only [hpk', if_false]
    split_ifs <;> linarith
  · intro cur h1 h2
    unfold compute_drawdown_risk_multiplier
    rw [hd]
    simp only [hpk', if_false]
    split_ifs <;> linarith
  · intro cur h1 h2
    unfold compute_drawdown_risk_multiplier
    rw [hd]
    simp only [hpk', if_false]
    split_ifs <;> linarith
  · intro c1 c2 hc
    have hdd : (peak - c1) / peak ≤ (peak - c2) / peak :=
      (div_le_div_right hpk).mpr (by linarith)
    unfold compute_drawdown_risk_multiplier
    rw [hd]
    simp only [hpk', if_false]
    split_ifs <;> linarith

/-- The drawdown-recovery configuration of the claim's scenario. -/
def dreScenario : DreCfg :=
  { l1 := 1 / 100, l2 := 2 / 100, l3 := 3 / 100,
    m1 := 8 / 10, m2 := 6 / 10, m3 := 4 / 10 }

/-- Config carrying the scenario's drawdown-recovery block. -/
def cfgDre : NormCfg := { (default : NormCfg) with dre := some dreScenario }

/-- Claim C3 (witness): equity 9,400 against peak 10,000 with thresholds
0.01/0.02/0.03 and multipliers 0.8/0.6/0.4 yields 0.4. -/
theorem C3_drawdown_multiplier_witness :
    compute_drawdown_risk_multiplier cfgDre 9400 10000 = 4 / 10 := by
  have h := (C3_drawdown_multiplier cfgDre dreScenario rfl 10000 (by norm_num)
    (by norm_num [dreScenario]) (by norm_num [dreScenario]) (by norm_num [dreScenario])
    (by norm_num [dreScenario]) (by norm_num [dreScenario])).2.1 9400
    (by norm_num [dreScenario])
  rw [h]
  norm_num [dreScenario]

/-!
Claim C5 — position-size risk fraction.
-/

/-- Claim C5: for every confidence, streak state, anti-martingale
configuration and non-negative signal risk multiplier, the final risk
fraction never exceeds `risk_per_trade_max`; the base fraction is the max for
confidence at least 80, the midpoint for confidence at least 65, and the min
otherwise. -/
theorem C5_position_risk (rmin rmax confidence : ℚ) (am : Option AmCfg)
    (wins losses : ℕ) (rm : ℚ) (hrm : 0 ≤ rm) :
    calculate_position_size_risk rmin rmax confidence am wins losses rm ≤ rmax ∧
    (80 ≤ confidence → base_risk_pct rmin rmax confidence = rmax) ∧
    (65 ≤ confidence → confidence < 80 →
      base_risk_pct rmin rmax confidence = (rmin + rmax) / 2) ∧
    (confidence < 65 → base_risk_pct rmin rmax confidence = rmin) := by
  refine ⟨min_le_right _ _, ?_, ?_, ?_⟩
  · intro h
    unfold base_risk_pct
    split_ifs <;> first | rfl | linarith
  · intro h1 h2
    unfold base_risk_pct
    split_ifs <;> first | rfl | linarith
  · intro h
    unfold base_risk_pct
    split_ifs <;> first | rfl | linarith

/-- Claim C5 (witness): concrete sizing inputs — confidence 85 in the 1%-2%
risk band with a unit multiplier stays capped at 2% and the base tier picks
the max. -/
theorem C5_position_risk_witness :
    calculate_position_size_risk (1 / 100) (2 / 100) 85 none 0 0 1 ≤ 2 / 100 ∧
    base_risk_pct (1 / 100) (2 / 100) 85 = 2 / 100 :=
  ⟨(C5_position_risk (1 / 100) (2 / 100) 85 none 0 0 1 (by norm_num)).1,
   (C5_position_risk (1 / 100) (2 / 100) 85 none 0 0 1 (by norm_num)).2.1 (by norm_num)⟩

/-!
Claim C7 — RSI at zero average loss.
-/

/-- The gain series has the length of the price series. -/
theorem rsi_gain_series_length (prices : List ℚ) (period : ℕ) :
    (rsi_gain_series prices period).length = prices.length := by
  simp [rsi_gain_series, rollingMeanP, diffP]

/-- The loss series has the length of the price series. -/
theorem rsi_loss_series_length (prices : List ℚ) (period : ℕ) :
    (rsi_loss_series prices period).length = prices.length := by
  simp [rsi_loss_series, rollingMeanP, diffP]

/-- `_calc_rsi` has the length of the price series. -/
theorem _calc_rsi_length (prices : List ℚ) (period : ℕ) :
    (_calc_rsi prices period).length = prices.length := by
  simp [_calc_rsi, rsi_gain_series_length, rsi_loss_series_length]

/-- `List.getD` at an in-bounds index is the element. -/
theorem getD_of_lt {α : Type} (l : List α) (i : ℕ) (d : α) (h : i < l.length) :
    l.getD i d = l[i] := by
  simp [List.getD_eq_getElem?_getD, List.getElem?_eq_getElem h]

/-- Claim C7 (amended): where the trailing average of negative-delta
magnitudes is zero, `_calc_rsi` is NaN exactly when the trailing average gain
is also zero; when the average gain is strictly positive the gain/loss ratio
is +inf and the RSI is the number 100 — not NaN and not an error. -/
theorem C7_rsi_zero_loss (prices : List ℚ) (period i : ℕ) (hi : i < prices.length)
    (hl : (rsi_loss_series prices period).getD i PFloat.nan = PFloat.val 0) :
    ((rsi_gain_series prices period).getD i PFloat.nan = PFloat.val 0 →
      (_calc_rsi prices period).getD i PFloat.nan = PFloat.nan) ∧
    (∀ g : ℚ, (rsi_gain_series prices period).getD i PFloat.nan = PFloat.val g →
      0 < g → (_calc_rsi prices period).getD i PFloat.nan = PFloat.val 100) := by
  have hgl : i < (rsi_gain_series prices period).length := by
    rw [rsi_gain_series_length]; exact hi
  have hll : i < (rsi_loss_series prices period).length := by
    rw [rsi_loss_series_length]; exact hi
  have hrl : i < (_calc_rsi prices period).length := by
    rw [_calc_rsi_length]; exact hi
  rw [getD_of_lt _ _ _ hll] at hl
  have hzip : (_calc_rsi prices period)[i] =
      PFloat.sub (PFloat.val 100)
        (PFloat.div (PFloat.val 100)
          (PFloat.add (PFloat.val 1)
            (PFloat.div (rsi_gain_series prices period)[i]
              (rsi_loss_series prices period)[i]))) := by
    simp [_calc_rsi]
  constructor
  · intro hg
    rw [getD_of_lt _ _ _ hgl] at hg
    rw [getD_of_lt _ _ _ hrl, hzip, hg, hl]
    simp [PFloat.div, PFloat.add, PFloat.sub, PFloat.neg]
  · intro g hg hgpos
    rw [getD_of_lt _ _ _ hgl] at hg
    rw [getD_of_lt _ _ _ hrl, hzip, hg, hl]
    simp [PFloat.div, PFloat.add, PFloat.sub, PFloat.neg, hgpos]

/-- Claim C7 (counterexample): for the strictly rising prices [1, 2, 3] with
period 2, at index 1 the average loss is 0 while the average gain is 1/2 > 0,
and the RSI value is the number 100 — the claim's required NaN is wrong. -/
theorem C7_rsi_zero_loss_counterexample :
    (rsi_loss_series [1, 2, 3] 2).getD 1 PFloat.nan = PFloat.val 0 ∧
    (rsi_gain_series [1, 2, 3] 2).getD 1 PFloat.nan = PFloat.val (1 / 2) ∧
    (_calc_rsi [1, 2, 3] 2).getD 1 PFloat.nan = PFloat.val 100 ∧
    PFloat.val 100 ≠ PFloat.nan := by
  refine ⟨?_, ?_, ?_, by simp⟩ <;>
    norm_num [_calc_rsi, rsi_gain_series, rsi_loss_series, rollingMeanP, diffP,
      windowAt, sumP, PFloat.add, PFloat.div, PFloat.sub, PFloat.neg, PFloat.blt,
      List.range, List.range.loop]

/-- Claim C7 (witness): the amended statement applied to the concrete series
[1, 2, 3] with period 2 at index 1. -/
theorem C7_rsi_zero_loss_witness :
    (_calc_rsi [1, 2, 3] 2).getD 1 PFloat.nan = PFloat.val 100 :=
  (C7_rsi_zero_loss [1, 2, 3] 2 1 (by norm_num)
      (by norm_num [rsi_loss_series, rollingMeanP, diffP, windowAt, sumP,
        PFloat.add, PFloat.div, PFloat.neg, PFloat.blt, List.range,
        List.range.loop])).2
    (1 / 2)
    (by norm_num [rsi_gain_series, rollingMeanP, diffP, windowAt, sumP,
      PFloat.add, PFloat.div, PFloat.blt, List.range, List.range.loop])
    (by norm_num)

/-!
Claim C8 — ATR-based exit levels.
-/

/-- `round(x, k)` is the identity on values that are integer multiples of
`10 ^ (-k)`. -/
theorem pyround_eq_self (x : ℚ) (k : ℕ) (m : ℤ) (h : x * 10 ^ k = m) :
    pyround x k = x := by
  have hpow : ((10 : ℚ) ^ k) ≠ 0 := by positivity
  unfold pyround roundHalfEven
  rw [h]
  rw [Int.floor_intCast]
  simp only [sub_self]
  norm_num
  rw [div_eq_iff hpow]
  linarith [h]

/-- Claim C8 (amended): with ATR exits enabled, a numeric ATR cell, and
entry/stop/target distances representable at the 5-decimal grid the source
rounds to, the BUY levels are exactly entry − ATR·sl_mult and
entry + ATR·tp_mult, SELL is mirrored, and doubling the stop multiplier
exactly doubles the stop distance.  (Without the 5-decimal representability
the `round(x, 5)` of the source perturbs the levels — see the
counterexample.) -/
theorem C8_atr_exit_levels (cfg : NormCfg) (symbol : String) (entry a : ℚ)
    (latest : AugBar) (hatr : latest.atr = some (PFloat.val a))
    (huse : cfg.use_atr_exit = true)
    (he : ∃ m : ℤ, entry * 10 ^ 5 = m)
    (hsl : ∃ m : ℤ, a * cfg.atr_multiplier_sl * 10 ^ 5 = m)
    (htp : ∃ m : ℤ, a * cfg.atr_multiplier_tp * 10 ^ 5 = m) :
    _exit_levels cfg symbol entry "BUY" latest =
      (PFloat.val (entry - a * cfg.atr_multiplier_sl),
       PFloat.val (entry + a * cfg.atr_multiplier_tp)) ∧
    _exit_levels cfg symbol entry "SELL" latest =
      (PFloat.val (entry + a * cfg.atr_multiplier_sl),
       PFloat.val (entry - a * cfg.atr_multiplier_tp)) ∧
    (∀ cfg2 : NormCfg, cfg2.use_atr_exit = true →
      cfg2.atr_multiplier_sl = 2 * cfg.atr_multiplier_sl →
      (_exit_levels cfg2 symbol entry "BUY" latest).1 =
        PFloat.val (entry - 2 * (a * cfg.atr_multiplier_sl))) := by
  obtain ⟨me, hme⟩ := he
  obtain ⟨msl, hmsl⟩ := hsl
  obtain ⟨mtp, hmtp⟩ := htp
  have hsub : (entry - a * cfg.atr_multiplier_sl) * 10 ^ 5 = ((me - msl : ℤ) : ℚ) := by
    push_cast
    rw [sub_mul, hme, hmsl]
  have hadd : (entry + a * cfg.atr_multiplier_tp) * 10 ^ 5 = ((me + mtp : ℤ) : ℚ) := by
    push_cast
    rw [add_mul, hme, hmtp]
  have hsub2 : (entry - a * cfg.atr_multiplier_tp) * 10 ^ 5 = ((me - mtp : ℤ) : ℚ) := by
    push_cast
    rw [sub_mul, hme, hmtp]
  have hadd2 : (entry + a * cfg.atr_multiplier_sl) * 10 ^ 5 = ((me + msl : ℤ) : ℚ) := by
    push_cast
    rw [add_mul, hme, hmsl]
  have hdbl : (entry - 2 * (a * cfg.atr_multiplier_sl)) * 10 ^ 5 =
      ((me - 2 * msl : ℤ) : ℚ) := by
    push_cast
    linear_combination hme - 2 * hmsl
  refine ⟨?_, ?_, ?_⟩
  · unfold _exit_levels
    rw [hatr]
    simp [huse, PFloat.isNan, PFloat.mul, PFloat.sub, PFloat.neg, PFloat.add,
      PFloat.roundTo]
    constructor
    · rw [← sub_eq_add_neg]
      exact pyround_eq_self _ _ _ hsub
    · exact pyround_eq_self _ _ _ hadd
  · unfold _exit_levels
    rw [hatr]
    simp [huse, PFloat.isNan, PFloat.mul, PFloat.sub, PFloat.neg, PFloat.add,
      PFloat.roundTo]
    constructor
    · exact pyround_eq_self _ _ _ hadd2
    · rw [← sub_eq_add_neg]
      exact pyround_eq_self _ _ _ hsub2
  · intro cfg2 huse2 hmul2
    unfold _exit_levels
    rw [hatr]
    simp [huse2, hmul2, PFloat.isNan, PFloat.mul, PFloat.sub, PFloat.neg,
      PFloat.add, PFloat.roundTo]
    rw [← sub_eq_add_neg]
    have h2 : a * (2 * cfg.atr_multiplier_sl) = 2 * (a * cfg.atr_multiplier_sl) := by
      ring
    rw [h2]
    exact pyround_eq_self _ _ _ hdbl

/-- Config of the claim's exit scenario: ATR exits on, sl multiplier 1.5,
tp multiplier 2.5. -/
def cfgAtrExit : NormCfg :=
  { (default : NormCfg) with use_atr_exit := true,
                             atr_multiplier_sl := 3 / 2,
                             atr_multiplier_tp := 5 / 2 }

/-- Latest bar with ATR = 0.0020. -/
def barAtr20 : AugBar := { (default : AugBar) with atr := some (PFloat.val (1 / 500)) }

/-- Latest bar with ATR = 0.0000012, finer than the 5-decimal rounding grid. -/
def barAtrTiny : AugBar :=
  { (default : AugBar) with atr := some (PFloat.val (3 / 2500000)) }

/-- Claim C8 (counterexample): with ATR = 0.0000012, sl multiplier 1.5 and
entry 1.2, the source's `round(x, 5)` snaps the BUY stop to 1.2 itself, so
`stop_loss = entry - ATR * atr_multiplier_sl` fails and the stop distance is
not linear in the multiplier. -/
theorem C8_atr_exit_levels_counterexample :
    (_exit_levels cfgAtrExit "EURUSD" (6 / 5) "BUY" barAtrTiny).1 =
      PFloat.val (6 / 5) ∧
    (6 : ℚ) / 5 ≠ 6 / 5 - 3 / 2500000 * (3 / 2) := by
  constructor
  · norm_num [_exit_levels, cfgAtrExit, barAtrTiny, PFloat.isNan, PFloat.mul,
      PFloat.sub, PFloat.neg, PFloat.add, PFloat.roundTo, pyround, roundHalfEven]
  · norm_num

/-- Claim C8 (witness): the scenario ATR = 0.0020, multipliers 1.5/2.5,
entry 1.2000, BUY gives stop 1.1970 and target 1.2050, via the amended
theorem. -/
theorem C8_atr_exit_levels_witness :
    _exit_levels cfgAtrExit "EURUSD" (6 / 5) "BUY" barAtr20 =
      (PFloat.val (1197 / 1000), PFloat.val (241 / 200)) := by
  have h := (C8_atr_exit_levels cfgAtrExit "EURUSD" (6 / 5) (1 / 500) barAtr20
    rfl rfl ⟨120000, by norm_num⟩ ⟨300, by norm_num [cfgAtrExit]⟩
    ⟨500, by norm_num [cfgAtrExit]⟩).1
  rw [h]
  norm_num [cfgAtrExit]

/-!
Claim C6 — risk multiplier is always the dd/vol product.
-/

/-- Claim C6: on every return path of `analyze` (length guard, each gate HOLD,
scoring HOLD, BUY and SELL) the returned signal's `risk_multiplier` equals the
product of its `dd_multiplier` and its `vol_multiplier`, for every input. -/
theorem C6_risk_multiplier_product (cfg : NormCfg) (symbol : String)
    (rows : List AugBar) (current_spread current_equity peak_equity : ℚ)
    (weekday : ℕ) (hour : ℤ) (newsHit : Bool) :
    (analyze cfg symbol rows current_spread current_equity peak_equity weekday
        hour newsHit).risk_multiplier =
      (analyze cfg symbol rows current_spread current_equity peak_equity weekday
        hour newsHit).dd_multiplier *
      (analyze cfg symbol rows current_spread current_equity peak_equity weekday
        hour newsHit).vol_multiplier := by
  unfold analyze
  repeat' split
  all_goals
    by_cases hb : ((adjusted_scores cfg rows current_spread).2 <
        (adjusted_scores cfg rows current_spread).1 ∧
      cfg.min_confidence ≤ (adjusted_scores cfg rows current_spread).1) <;>
    by_cases hs : ((adjusted_scores cfg rows current_spread).1 <
        (adjusted_scores cfg rows current_spread).2 ∧
      cfg.min_confidence ≤ (adjusted_scores cfg rows current_spread).2) <;>
    simp [hb, hs, _hold]

/-!
Claim C10 — strict-majority decision rule.
-/

/-- Claim C10: whenever the liquidity-adjusted buy and sell scores are equal,
`analyze` returns HOLD (whatever the threshold); a BUY requires the buy score
to strictly exceed the sell score and reach the minimum confidence, and
symmetrically for SELL. -/
theorem C10_strict_majority (cfg : NormCfg) (symbol : String)
    (rows : List AugBar) (current_spread current_equity peak_equity : ℚ)
    (weekday : ℕ) (hour : ℤ) (newsHit : Bool) :
    ((adjusted_scores cfg rows current_spread).1 =
        (adjusted_scores cfg rows current_spread).2 →
      (analyze cfg symbol rows current_spread current_equity peak_equity weekday
        hour newsHit).action = "HOLD") ∧
    ((analyze cfg symbol rows current_spread current_equity peak_equity weekday
        hour newsHit).action = "BUY" →
      (adjusted_scores cfg rows current_spread).1 >
        (adjusted_scores cfg rows current_spread).2 ∧
      (adjusted_scores cfg rows current_spread).1 ≥ cfg.min_confidence) ∧
    ((analyze cfg symbol rows current_spread current_equity peak_equity weekday
        hour newsHit).action = "SELL" →
      (adjusted_scores cfg rows current_spread).2 >
        (adjusted_scores cfg rows current_spread).1 ∧
      (adjusted_scores cfg rows current_spread).2 ≥ cfg.min_confidence) := by
  refine ⟨?_, ?_, ?_⟩
  · intro ht
    have hbf : ¬((adjusted_scores cfg rows current_spread).2 <
        (adjusted_scores cfg rows current_spread).1 ∧
        cfg.min_confidence ≤ (adjusted_scores cfg rows current_spread).1) := by
      rintro ⟨h, _⟩
      rw [ht] at h
      exact lt_irrefl _ h
    have hsf : ¬((adjusted_scores cfg rows current_spread).1 <
        (adjusted_scores cfg rows current_spread).2 ∧
        cfg.min_confidence ≤ (adjusted_scores cfg rows current_spread).2) := by
      rintro ⟨h, _⟩
      rw [ht] at h
      exact lt_irrefl _ h
    unfold analyze
    repeat' split
    all_goals simp [_hold, hbf, hsf]
  · intro hact
    by_cases hb : ((adjusted_scores cfg rows current_spread).2 <
        (adjusted_scores cfg rows current_spread).1 ∧
        cfg.min_confidence ≤ (adjusted_scores cfg rows current_spread).1)
    · exact ⟨hb.1, hb.2⟩
    · exfalso
      revert hact
      unfold analyze
      repeat' split
      all_goals
        by_cases hs : ((adjusted_scores cfg rows current_spread).1 <
            (adjusted_scores cfg rows current_spread).2 ∧
          cfg.min_confidence ≤ (adjusted_scores cfg rows current_spread).2) <;>
        simp [_hold, hb, hs]
  · intro hact
    by_cases hs : ((adjusted_scores cfg rows current_spread).1 <
        (adjusted_scores cfg rows current_spread).2 ∧
        cfg.min_confidence ≤ (adjusted_scores cfg rows current_spread).2)
    · exact ⟨hs.1, hs.2⟩
    · exfalso
      revert hact
      unfold analyze
      repeat' split
      all_goals
        by_cases hb : ((adjusted_scores cfg rows current_spread).2 <
            (adjusted_scores cfg rows current_spread).1 ∧
          cfg.min_confidence ≤ (adjusted_scores cfg rows current_spread).1) <;>
        simp [_hold, hb, hs]

/-- Claim C10 (witness): on an input whose adjusted scores tie, `analyze`
returns HOLD. -/
theorem C10_strict_majority_witness :
    (analyze (default : NormCfg) "EURUSD" [] 0 0 0 0 0 false).action = "HOLD" :=
  (C10_strict_majority default "EURUSD" [] 0 0 0 0 0 false).1 rfl

/-!
Claim C4 — gate order and short-circuit in `analyze`.
-/

/-- Claim C4: with at least two bars, the gates run in the fixed order
weekend shield, news block, spread filter; the first failing gate
short-circuits `analyze` into exactly the `_hold` signal carrying that gate's
reason (so scoring is never evaluated), and when all three gates pass the
returned `hold_reason` is empty. -/
theorem C4_gate_composition (cfg : NormCfg) (symbol : String)
    (rows : List AugBar) (current_spread current_equity peak_equity : ℚ)
    (weekday : ℕ) (hour : ℤ) (newsHit : Bool) (hlen : 2 ≤ rows.length) :
    (check_weekend_shield cfg weekday hour = false →
      analyze cfg symbol rows current_spread current_equity peak_equity weekday
          hour newsHit =
        _hold (rows.getD (rows.length - 1) default).close "weekend_shield") ∧
    (check_weekend_shield cfg weekday hour = true →
      check_news_block cfg newsHit = false →
      analyze cfg symbol rows current_spread current_equity peak_equity weekday
          hour newsHit =
        _hold (rows.getD (rows.length - 1) default).close "news_block") ∧
    (check_weekend_shield cfg weekday hour = true →
      check_news_block cfg newsHit = true →
      check_spread_filter cfg current_spread rows = false →
      analyze cfg symbol rows current_spread current_equity peak_equity weekday
          hour newsHit =
        _hold (rows.getD (rows.length - 1) default).close "spread_too_wide") ∧
    (check_weekend_shield cfg weekday hour = true →
      check_news_block cfg newsHit = true →
      check_spread_filter cfg current_spread rows = true →
      (analyze cfg symbol rows current_spread current_equity peak_equity weekday
          hour newsHit).hold_reason = "") := by
  have hlen' : ¬rows.length < 2 := by omega
  refine ⟨?_, ?_, ?_, ?_⟩
  · intro hws
    unfold analyze
    simp [hlen', hws]
  · intro hws hnb
    unfold analyze
    simp [hlen', hws, hnb]
  · intro hws hnb hsf
    unfold analyze
    simp [hlen', hws, hnb, hsf]
  · intro hws hnb hsf
    unfold analyze
    simp only [hlen', hws, hnb, hsf, if_false, Bool.not_true, not_false_iff,
      Bool.false_eq_true, if_true]
    repeat' split
    all_goals simp_all [_hold]

/-- Config with the weekend shield enabled. -/
def cfgWeekend : NormCfg := { (default : NormCfg) with weekend_shield_enabled := true }

/-- Claim C4 (witness): on a Sunday (weekday 6) with the shield enabled, the
weekend gate fires and `analyze` returns the weekend-shield HOLD. -/
theorem C4_gate_composition_witness :
    analyze cfgWeekend "EURUSD" [default, default] 0 0 0 6 10 false =
      _hold (([default, default] : List AugBar).getD
        (([default, default] : List AugBar).length - 1) default).close
        "weekend_shield" :=
  (C4_gate_composition cfgWeekend "EURUSD" [default, default] 0 0 0 6 10 false
    (by norm_num)).1 (by decide)

/-!
Claim C9 — score bounds.  Helper facts about truncation, rounding and the
liquidity clamp.
-/

/-- `int(q)` of a non-negative rational is non-negative. -/
theorem pyint_nonneg (q : ℚ) (h : 0 ≤ q) : 0 ≤ pyint q := by
  unfold pyint
  rw [if_neg (not_lt.mpr h)]
  exact_mod_cast Int.floor_nonneg.mpr h

/-- `int(q)` of a non-negative rational is at most the rational. -/
theorem pyint_le (q : ℚ) (h : 0 ≤ q) : pyint q ≤ q := by
  unfold pyint
  rw [if_neg (not_lt.mpr h)]
  exact Int.floor_le q

/-- Half-even rounding preserves non-negativity. -/
theorem roundHalfEven_nonneg (y : ℚ) (h : 0 ≤ y) : 0 ≤ roundHalfEven y := by
  simp only [roundHalfEven]
  have hf : 0 ≤ ⌊y⌋ := Int.floor_nonneg.mpr h
  split_ifs <;> omega

/-- Half-even rounding never exceeds an integer upper bound of its input. -/
theorem roundHalfEven_le (y : ℚ) (n : ℤ) (h : y ≤ n) : roundHalfEven y ≤ n := by
  simp only [roundHalfEven]
  have hfn : ⌊y⌋ ≤ n := by
    rw [show n = ⌊(n : ℚ)⌋ from (Int.floor_intCast n).symm]
    exact Int.floor_le_floor h
  have hfl : (⌊y⌋ : ℚ) ≤ y := Int.floor_le y
  split_ifs with h1 h2 h3
  · exact hfn
  · have hq : (⌊y⌋ : ℚ) < (n : ℚ) := by linarith
    have : ⌊y⌋ < n := by exact_mod_cast hq
    omega
  · exact hfn
  · have hr1 : (1 : ℚ) / 2 ≤ y - ⌊y⌋ := not_lt.mp h1
    have hq : (⌊y⌋ : ℚ) < (n : ℚ) := by linarith
    have : ⌊y⌋ < n := by exact_mod_cast hq
    omega

/-- `round(x, k)` preserves non-negativity. -/
theorem pyround_nonneg (x : ℚ) (k : ℕ) (h : 0 ≤ x) : 0 ≤ pyround x k := by
  unfold pyround
  apply div_nonneg
  · exact_mod_cast roundHalfEven_nonneg _ (by positivity)
  · positivity

/-- `round(x, k)` of a value at most 1 is at most 1. -/
theorem pyround_le_one (x : ℚ) (k : ℕ) (h : x ≤ 1) : pyround x k ≤ 1 := by
  unfold pyround
  rw [div_le_one (by positivity)]
  have hb : roundHalfEven (x * 10 ^ k) ≤ ((10 : ℤ) ^ k) := by
    apply roundHalfEven_le
    push_cast
    calc x * 10 ^ k ≤ 1 * 10 ^ k := by
          apply mul_le_mul_of_nonneg_right h (by positivity)
      _ = 10 ^ k := one_mul _
  exact_mod_cast hb

/-- The final clamp of the liquidity score is NaN or a rational in [0, 1]. -/
theorem limClamp_cases (s : PFloat) :
    limClamp s = PFloat.nan ∨
      ∃ q : ℚ, limClamp s = PFloat.val q ∧ 0 ≤ q ∧ q ≤ 1 := by
  have h14 : pyround 1 4 = 1 := pyround_eq_self 1 4 10000 (by norm_num)
  have h04 : pyround 0 4 = 0 := pyround_eq_self 0 4 0 (by norm_num)
  cases s with
  | val q =>
      right
      by_cases h0 : q < 0
      · refine ⟨pyround 0 4, ?_, by rw [h04], by rw [h04]; norm_num⟩
        norm_num [limClamp, PFloat.pymin, PFloat.pymax, PFloat.bgt, PFloat.blt,
          PFloat.roundTo, h0]
      · by_cases h1 : 1 < q
        · refine ⟨pyround 1 4, ?_, by rw [h14]; norm_num, by rw [h14]⟩
          norm_num [limClamp, PFloat.pymin, PFloat.pymax, PFloat.bgt, PFloat.blt,
            PFloat.roundTo, h0, h1]
        · refine ⟨pyround q 4, ?_, pyround_nonneg q 4 (not_lt.mp h0),
            pyround_le_one q 4 (not_lt.mp h1)⟩
          norm_num [limClamp, PFloat.pymin, PFloat.pymax, PFloat.bgt, PFloat.blt,
            PFloat.roundTo, h0, h1]
  | pinf =>
      right
      refine ⟨pyround 1 4, ?_, by rw [h14]; norm_num, by rw [h14]⟩
      norm_num [limClamp, PFloat.pymin, PFloat.pymax, PFloat.bgt, PFloat.blt,
        PFloat.roundTo]
  | ninf =>
      right
      refine ⟨pyround 0 4, ?_, by rw [h04], by rw [h04]; norm_num⟩
      norm_num [limClamp, PFloat.pymin, PFloat.pymax, PFloat.bgt, PFloat.blt,
        PFloat.roundTo]
  | nan =>
      left
      norm_num [limClamp, PFloat.pymin, PFloat.pymax, PFloat.bgt, PFloat.blt,
        PFloat.roundTo]

/-- The liquidity score is NaN or a rational in [0, 1]. -/
theorem lim_score_cases (cfg : NormCfg) (rows : List AugBar) (spread : ℚ) :
    compute_liquidity_imbalance_score cfg rows spread = PFloat.nan ∨
      ∃ q : ℚ, compute_liquidity_imbalance_score cfg rows spread = PFloat.val q ∧
        0 ≤ q ∧ q ≤ 1 := by
  unfold compute_liquidity_imbalance_score
  split_ifs with h
  · right
    exact ⟨1 / 2, rfl, by norm_num, by norm_num⟩
  · exact limClamp_cases _

/-- Bounds through the liquidity adjustment: with a clamped liquidity score,
a reduction factor in [0, 1], and a non-negative bonus weight, the adjusted
scores stay within [0, raw-bound + lim_bonus]. -/
theorem lim_adjust_bounds (cfg : NormCfg) (lim : PFloat) (bs : ℚ × ℚ) (S0 : ℚ)
    (hlim : lim = PFloat.nan ∨ ∃ q : ℚ, lim = PFloat.val q ∧ 0 ≤ q ∧ q ≤ 1)
    (hb0 : 0 ≤ bs.1) (hbS : bs.1 ≤ S0) (hs0 : 0 ≤ bs.2) (hsS : bs.2 ≤ S0)
    (hlb : 0 ≤ cfg.scoring.lim_bonus.getD 0)
    (hf0 : 0 ≤ cfg.lim_risk_reduction.getD (7 / 10))
    (hf1 : cfg.lim_risk_reduction.getD (7 / 10) ≤ 1) :
    0 ≤ (lim_adjust cfg lim bs).1 ∧
    (lim_adjust cfg lim bs).1 ≤ S0 + cfg.scoring.lim_bonus.getD 0 ∧
    0 ≤ (lim_adjust cfg lim bs).2 ∧
    (lim_adjust cfg lim bs).2 ≤ S0 + cfg.scoring.lim_bonus.getD 0 := by
  have hbase : 0 ≤ bs.1 ∧ bs.1 ≤ S0 + cfg.scoring.lim_bonus.getD 0 ∧
      0 ≤ bs.2 ∧ bs.2 ≤ S0 + cfg.scoring.lim_bonus.getD 0 :=
    ⟨hb0, by linarith, hs0, by linarith⟩
  have hext : 0 ≤ (pyint (bs.1 * cfg.lim_risk_reduction.getD (7 / 10)),
        pyint (bs.2 * cfg.lim_risk_reduction.getD (7 / 10))).1 ∧
      (pyint (bs.1 * cfg.lim_risk_reduction.getD (7 / 10)),
        pyint (bs.2 * cfg.lim_risk_reduction.getD (7 / 10))).1 ≤
        S0 + cfg.scoring.lim_bonus.getD 0 ∧
      0 ≤ (pyint (bs.1 * cfg.lim_risk_reduction.getD (7 / 10)),
        pyint (bs.2 * cfg.lim_risk_reduction.getD (7 / 10))).2 ∧
      (pyint (bs.1 * cfg.lim_risk_reduction.getD (7 / 10)),
        pyint (bs.2 * cfg.lim_risk_reduction.getD (7 / 10))).2 ≤
        S0 + cfg.scoring.lim_bonus.getD 0 := by
    have hb1 : 0 ≤ bs.1 * cfg.lim_risk_reduction.getD (7 / 10) :=
      mul_nonneg hb0 hf0
    have hs1 : 0 ≤ bs.2 * cfg.lim_risk_reduction.getD (7 / 10) :=
      mul_nonneg hs0 hf0
    have hb2 : bs.1 * cfg.lim_risk_reduction.getD (7 / 10) ≤ bs.1 :=
      mul_le_of_le_one_right hb0 hf1
    have hs2 : bs.2 * cfg.lim_risk_reduction.getD (7 / 10) ≤ bs.2 :=
      mul_le_of_le_one_right hs0 hf1
    have hb3 := pyint_le _ hb1
    have hs3 := pyint_le _ hs1
    exact ⟨pyint_nonneg _ hb1, by simp only []; linarith,
      pyint_nonneg _ hs1, by simp only []; linarith⟩
  unfold lim_adjust
  split_ifs with he hx hstr
  · exact hext
  · rcases hlim with hnan | ⟨q, hq, hq0, hq1⟩
    · rw [hnan] at hstr
      simp [PFloat.bge, PFloat.ble] at hstr
    · rw [hq]
      have hbq : 0 ≤ cfg.scoring.lim_bonus.getD 0 * q := mul_nonneg hlb hq0
      have hble : cfg.scoring.lim_bonus.getD 0 * q ≤ cfg.scoring.lim_bonus.getD 0 :=
        mul_le_of_le_one_right hlb hq1
      have h1 := pyint_nonneg _ hbq
      have h2 := pyint_le _ hbq
      exact ⟨by simp only []; linarith, by simp only []; linarith,
        by simp only []; linarith, by simp only []; linarith⟩
  · exact hbase
  · exact hbase

/-- Bounds for one trend pair: a scored pair stays within
[0, ma_cross + ma_cross_bonus] on both sides. -/
theorem tryTrendPair_bounds (sc : Scoring) (fv sv : Option PFloat)
    (pf ps : PFloat) (hw : 0 ≤ sc.ma_cross.getD 25)
    (hb : 0 ≤ sc.ma_cross_bonus.getD 8) (r : ℚ × ℚ)
    (h : tryTrendPair sc fv sv pf ps = some r) :
    0 ≤ r.1 ∧ r.1 ≤ sc.ma_cross.getD 25 + sc.ma_cross_bonus.getD 8 ∧
    0 ≤ r.2 ∧ r.2 ≤ sc.ma_cross.getD 25 + sc.ma_cross_bonus.getD 8 := by
  unfold tryTrendPair at h
  rcases fv with _ | f
  · simp at h
  · rcases sv with _ | s
    · simp at h
    · repeat' split_ifs at h
      all_goals try simp at h
      all_goals try obtain ⟨-, h⟩ := h
      all_goals repeat' split_ifs at h
      all_goals try simp only [Option.some.injEq] at h
      all_goals subst h
      all_goals refine ⟨?_, ?_, ?_, ?_⟩ <;> simp <;> linarith

/-- Bounds for the trend component. -/
theorem trendComponent_bounds (sc : Scoring) (latest prev : AugBar)
    (hw : 0 ≤ sc.ma_cross.getD 25) (hb : 0 ≤ sc.ma_cross_bonus.getD 8) :
    0 ≤ (trendComponent sc latest prev).1 ∧
    (trendComponent sc latest prev).1 ≤
      sc.ma_cross.getD 25 + sc.ma_cross_bonus.getD 8 ∧
    0 ≤ (trendComponent sc latest prev).2 ∧
    (trendComponent sc latest prev).2 ≤
      sc.ma_cross.getD 25 + sc.ma_cross_bonus.getD 8 := by
  unfold trendComponent
  cases h1 : tryTrendPair sc latest.emaFast latest.emaSlow
      (prev.emaFast.getD (PFloat.val 0)) (prev.emaSlow.getD (PFloat.val 0)) with
  | some r => exact tryTrendPair_bounds sc _ _ _ _ hw hb r h1
  | none =>
      dsimp only
      cases h2 : tryTrendPair sc latest.maFast latest.maSlow
          (prev.maFast.getD (PFloat.val 0)) (prev.maSlow.getD (PFloat.val 0)) with
      | some r => exact tryTrendPair_bounds sc _ _ _ _ hw hb r h2
      | none =>
          dsimp only
          exact ⟨le_refl 0, by linarith, le_refl 0, by linarith⟩

/-- Bounds for the RSI component. -/
theorem rsiComponent_bounds (cfg : NormCfg) (latest : AugBar)
    (hw : 0 ≤ cfg.scoring.rsi.getD 20) :
    0 ≤ (rsiComponent cfg latest).1 ∧
    (rsiComponent cfg latest).1 ≤ cfg.scoring.rsi.getD 20 ∧
    0 ≤ (rsiComponent cfg latest).2 ∧
    (rsiComponent cfg latest).2 ≤ cfg.scoring.rsi.getD 20 := by
  have hi0 : 0 ≤ cfg.scoring.rsi.getD 20 * (2 / 5) := by linarith
  have hint0 := pyint_nonneg _ hi0
  have hint1 : pyint (cfg.scoring.rsi.getD 20 * (2 / 5)) ≤ cfg.scoring.rsi.getD 20 := by
    have := pyint_le _ hi0
    linarith
  unfold rsiComponent
  cases latest.rsi with
  | none => refine ⟨?_, ?_, ?_, ?_⟩ <;> dsimp only <;> linarith
  | some r =>
      dsimp only
      split_ifs <;> refine ⟨?_, ?_, ?_, ?_⟩ <;> dsimp only <;> linarith

/-- Bounds for the MACD component. -/
theorem macdComponent_bounds (sc : Scoring) (latest prev : AugBar)
    (hw : 0 ≤ sc.macd.getD 20) (hb : 0 ≤ sc.macd_cross_bonus.getD 8) :
    0 ≤ (macdComponent sc latest prev).1 ∧
    (macdComponent sc latest prev).1 ≤ sc.macd.getD 20 + sc.macd_cross_bonus.getD 8 ∧
    0 ≤ (macdComponent sc latest prev).2 ∧
    (macdComponent sc latest prev).2 ≤
      sc.macd.getD 20 + sc.macd_cross_bonus.getD 8 := by
  unfold macdComponent
  cases latest.macd with
  | none => refine ⟨?_, ?_, ?_, ?_⟩ <;> dsimp only <;> linarith
  | some m =>
      cases latest.macdSignal with
      | none => refine ⟨?_, ?_, ?_, ?_⟩ <;> dsimp only <;> linarith
      | some ms =>
          dsimp only
          split_ifs <;> refine ⟨?_, ?_, ?_, ?_⟩ <;> dsimp only <;> linarith

/-- Bounds for the Bollinger component. -/
theorem bollingerComponent_bounds (sc : Scoring) (latest : AugBar)
    (hw : 0 ≤ sc.bollinger_bands.getD 15) :
    0 ≤ (bollingerComponent sc latest).1 ∧
    (bollingerComponent sc latest).1 ≤ sc.bollinger_bands.getD 15 ∧
    0 ≤ (bollingerComponent sc latest).2 ∧
    (bollingerComponent sc latest).2 ≤ sc.bollinger_bands.getD 15 := by
  unfold bollingerComponent
  cases latest.bbUpper with
  | none => refine ⟨?_, ?_, ?_, ?_⟩ <;> dsimp only <;> linarith
  | some u =>
      cases latest.bbLower with
      | none => refine ⟨?_, ?_, ?_, ?_⟩ <;> dsimp only <;> linarith
      | some l =>
          dsimp only
          split_ifs <;> refine ⟨?_, ?_, ?_, ?_⟩ <;> dsimp only <;> linarith

/-- Bounds for the Stochastic component. -/
theorem stochComponent_bounds (sc : Scoring) (latest : AugBar)
    (hw : 0 ≤ sc.stochastic.getD 12) :
    0 ≤ (stochComponent sc latest).1 ∧
    (stochComponent sc latest).1 ≤ sc.stochastic.getD 12 ∧
    0 ≤ (stochComponent sc latest).2 ∧
    (stochComponent sc latest).2 ≤ sc.stochastic.getD 12 := by
  unfold stochComponent
  cases latest.stochK with
  | none => refine ⟨?_, ?_, ?_, ?_⟩ <;> dsimp only <;> linarith
  | some k =>
      dsimp only
      split_ifs <;> refine ⟨?_, ?_, ?_, ?_⟩ <;> dsimp only <;> linarith

/-- Bounds for the momentum component. -/
theorem momentumComponent_bounds (sc : Scoring) (latest : AugBar)
    (hw : 0 ≤ sc.momentum.getD 10) :
    0 ≤ (momentumComponent sc latest).1 ∧
    (momentumComponent sc latest).1 ≤ sc.momentum.getD 10 ∧
    0 ≤ (momentumComponent sc latest).2 ∧
    (momentumComponent sc latest).2 ≤ sc.momentum.getD 10 := by
  unfold momentumComponent
  cases latest.momentum with
  | none => refine ⟨?_, ?_, ?_, ?_⟩ <;> dsimp only <;> linarith
  | some m =>
      dsimp only
      split_ifs <;> refine ⟨?_, ?_, ?_, ?_⟩ <;> dsimp only <;> linarith

/-- The raw scores of `_evaluate_conditions` are non-negative and bounded by
the sum of the six component weights and two cross bonuses. -/
theorem evaluate_conditions_bounds (cfg : NormCfg) (latest prev : AugBar)
    (h1 : 0 ≤ cfg.scoring.ma_cross.getD 25)
    (h2 : 0 ≤ cfg.scoring.ma_cross_bonus.getD 8)
    (h3 : 0 ≤ cfg.scoring.rsi.getD 20) (h4 : 0 ≤ cfg.scoring.macd.getD 20)
    (h5 : 0 ≤ cfg.scoring.macd_cross_bonus.getD 8)
    (h6 : 0 ≤ cfg.scoring.bollinger_bands.getD 15)
    (h7 : 0 ≤ cfg.scoring.stochastic.getD 12)
    (h8 : 0 ≤ cfg.scoring.momentum.getD 10) :
    0 ≤ (_evaluate_conditions cfg latest prev).1 ∧
    (_evaluate_conditions cfg latest prev).1 ≤
      cfg.scoring.ma_cross.getD 25 + cfg.scoring.ma_cross_bonus.getD 8 +
      cfg.scoring.rsi.getD 20 + cfg.scoring.macd.getD 20 +
      cfg.scoring.macd_cross_bonus.getD 8 + cfg.scoring.bollinger_bands.getD 15 +
      cfg.scoring.stochastic.getD 12 + cfg.scoring.momentum.getD 10 ∧
    0 ≤ (_evaluate_conditions cfg latest prev).2 ∧
    (_evaluate_conditions cfg latest prev).2 ≤
      cfg.scoring.ma_cross.getD 25 + cfg.scoring.ma_cross_bonus.getD 8 +
      cfg.scoring.rsi.getD 20 + cfg.scoring.macd.getD 20 +
      cfg.scoring.macd_cross_bonus.getD 8 + cfg.scoring.bollinger_bands.getD 15 +
      cfg.scoring.stochastic.getD 12 + cfg.scoring.momentum.getD 10 := by
  obtain ⟨t1, t2, t3, t4⟩ := trendComponent_bounds cfg.scoring latest prev h1 h2
  obtain ⟨r1, r2, r3, r4⟩ := rsiComponent_bounds cfg latest h3
  obtain ⟨m1, m2, m3, m4⟩ := macdComponent_bounds cfg.scoring latest prev h4 h5
  obtain ⟨b1, b2, b3, b4⟩ := bollingerComponent_bounds cfg.scoring latest h6
  obtain ⟨s1, s2, s3, s4⟩ := stochComponent_bounds cfg.scoring latest h7
  obtain ⟨o1, o2, o3, o4⟩ := momentumComponent_bounds cfg.scoring latest h8
  unfold _evaluate_conditions
  refine ⟨?_, ?_, ?_, ?_⟩ <;> dsimp only <;> linarith

/-- Claim C9 (amended): for all augmented bars, all scoring weights ≥ 0, and a
liquidity extreme-reduction factor lying in [0, 1], the liquidity-adjusted buy
and sell scores are each non-negative and at most the sum of the configured
component weights, cross bonuses and liquidity bonus.  (Without the bound on
the reduction factor the invariant fails — see the counterexample.) -/
theorem C9_score_bounds (cfg : NormCfg) (rows : List AugBar) (spread : ℚ)
    (h1 : 0 ≤ cfg.scoring.ma_cross.getD 25)
    (h2 : 0 ≤ cfg.scoring.ma_cross_bonus.getD 8)
    (h3 : 0 ≤ cfg.scoring.rsi.getD 20) (h4 : 0 ≤ cfg.scoring.macd.getD 20)
    (h5 : 0 ≤ cfg.scoring.macd_cross_bonus.getD 8)
    (h6 : 0 ≤ cfg.scoring.bollinger_bands.getD 15)
    (h7 : 0 ≤ cfg.scoring.stochastic.getD 12)
    (h8 : 0 ≤ cfg.scoring.momentum.getD 10)
    (h9 : 0 ≤ cfg.scoring.lim_bonus.getD 0)
    (hf0 : 0 ≤ cfg.lim_risk_reduction.getD (7 / 10))
    (hf1 : cfg.lim_risk_reduction.getD (7 / 10) ≤ 1) :
    0 ≤ (adjusted_scores cfg rows spread).1 ∧
    (adjusted_scores cfg rows spread).1 ≤ scoringWeightSum cfg.scoring ∧
    0 ≤ (adjusted_scores cfg rows spread).2 ∧
    (adjusted_scores cfg rows spread).2 ≤ scoringWeightSum cfg.scoring := by
  obtain ⟨e1, e2, e3, e4⟩ := evaluate_conditions_bounds cfg
    (rows.getD (rows.length - 1) default) (rows.getD (rows.length - 2) default)
    h1 h2 h3 h4 h5 h6 h7 h8
  obtain ⟨a1, a2, a3, a4⟩ := lim_adjust_bounds cfg
    (compute_liquidity_imbalance_score cfg rows spread)
    (_evaluate_conditions cfg (rows.getD (rows.length - 1) default)
      (rows.getD (rows.length - 2) default))
    (cfg.scoring.ma_cross.getD 25 + cfg.scoring.ma_cross_bonus.getD 8 +
      cfg.scoring.rsi.getD 20 + cfg.scoring.macd.getD 20 +
      cfg.scoring.macd_cross_bonus.getD 8 + cfg.scoring.bollinger_bands.getD 15 +
      cfg.scoring.stochastic.getD 12 + cfg.scoring.momentum.getD 10)
    (lim_score_cases cfg rows spread) e1 e2 e3 e4 h9 hf0 hf1
  unfold adjusted_scores
  unfold scoringWeightSum at *
  exact ⟨a1, by linarith, a3, by linarith⟩

/-- Bar with no indicator columns. -/
def emptyBar : AugBar :=
  { close := 0, emaFast := none, emaSlow := none, maFast := none,
    maSlow := none, rsi := none, macd := none, macdSignal := none,
    bbUpper := none, bbLower := none, stochK := none, momentum := none,
    atr := none, volume := none, volumePct := none, body_ratio := none }

/-- Bar whose fast EMA sits above its slow EMA. -/
def barTrendUp : AugBar :=
  { emptyBar with emaFast := some (PFloat.val 2), emaSlow := some (PFloat.val 1) }

/-- Scoring with only the trend weight set (10 points), everything else 0. -/
def scTrendOnly : Scoring :=
  { ma_cross := some 10, ma_cross_bonus := some 0, rsi := some 0,
    macd := some 0, macd_cross_bonus := some 0, bollinger_bands := some 0,
    stochastic := some 0, momentum := some 0, lim_bonus := some 0 }

/-- Config with the liquidity model enabled, an extreme threshold of 0 and an
extreme "reduction" factor of 2 — every weight is non-negative. -/
def cfgLimDouble : NormCfg :=
  { min_confidence := 60, rsi_oversold := 30, rsi_overbought := 70,
    scoring := scTrendOnly, lim_enabled := true,
    lim_tick_weight := 0, lim_volume_weight := 0, lim_body_weight := 0,
    lim_spread_weight := 0, lim_micro_atr_weight := 0,
    lim_strong_threshold := some 0, lim_extreme_threshold := some 0,
    lim_risk_reduction := some 2, dre := none, leverage_enabled := false,
    vol_percentile_window := none, leverage_extreme_mult := none,
    leverage_low_vol_mult := none, spread_filter_enabled := false,
    max_spread_multiplier := none, weekend_shield_enabled := false,
    weekend_hours_before := none, news_block_enabled := false,
    use_atr_exit := false, atr_multiplier_sl := 3 / 2,
    atr_multiplier_tp := 5 / 2, stop_loss_pips := 20, take_profit_pips := 40 }

/-- The same config with the reduction factor 1/2 (a genuine reduction). -/
def cfgLimHalf : NormCfg := { cfgLimDouble with lim_risk_reduction := some (1 / 2) }

/-- Claim C9 (counterexample): with every configured weight non-negative but
the liquidity extreme "reduction" factor set to 2, the adjusted buy score
reaches 20 while the sum of all configured weights and bonuses is 10 — the
claimed bound fails. -/
theorem C9_score_bounds_counterexample :
    scoringWeightSum cfgLimDouble.scoring = 10 ∧
    (adjusted_scores cfgLimDouble [barTrendUp, barTrendUp] 0).1 = 20 ∧
    ¬((20 : ℚ) ≤ 10) ∧
    0 ≤ cfgLimDouble.scoring.ma_cross.getD 25 ∧
    0 ≤ cfgLimDouble.scoring.ma_cross_bonus.getD 8 ∧
    0 ≤ cfgLimDouble.scoring.rsi.getD 20 ∧
    0 ≤ cfgLimDouble.scoring.macd.getD 20 ∧
    0 ≤ cfgLimDouble.scoring.macd_cross_bonus.getD 8 ∧
    0 ≤ cfgLimDouble.scoring.bollinger_bands.getD 15 ∧
    0 ≤ cfgLimDouble.scoring.stochastic.getD 12 ∧
    0 ≤ cfgLimDouble.scoring.momentum.getD 10 ∧
    0 ≤ cfgLimDouble.scoring.lim_bonus.getD 0 := by
  refine ⟨by norm_num [scoringWeightSum, cfgLimDouble, scTrendOnly], ?_,
    by norm_num, by norm_num [cfgLimDouble, scTrendOnly],
    by norm_num [cfgLimDouble, scTrendOnly], by norm_num [cfgLimDouble, scTrendOnly],
    by norm_num [cfgLimDouble, scTrendOnly], by norm_num [cfgLimDouble, scTrendOnly],
    by norm_num [cfgLimDouble, scTrendOnly], by norm_num [cfgLimDouble, scTrendOnly],
    by norm_num [cfgLimDouble, scTrendOnly], by norm_num [cfgLimDouble, scTrendOnly]⟩
  norm_num [adjusted_scores, lim_adjust, _evaluate_conditions, trendComponent,
    tryTrendPair, rsiComponent, macdComponent, bollingerComponent,
    stochComponent, momentumComponent, compute_liquidity_imbalance_score,
    cfgLimDouble, scTrendOnly, barTrendUp, emptyBar, List.getD,
    PFloat.bge, PFloat.ble, PFloat.blt, PFloat.bgt, PFloat.isNan, pyint]

/-- Claim C9 (witness): the amended bound evaluated on a concrete
configuration whose reduction factor is 1/2. -/
theorem C9_score_bounds_witness :
    0 ≤ (adjusted_scores cfgLimHalf [barTrendUp, barTrendUp] 0).1 ∧
    (adjusted_scores cfgLimHalf [barTrendUp, barTrendUp] 0).1 ≤
      scoringWeightSum cfgLimHalf.scoring := by
  have h := C9_score_bounds cfgLimHalf [barTrendUp, barTrendUp] 0
    (by norm_num [cfgLimHalf, cfgLimDouble, scTrendOnly])
    (by norm_num [cfgLimHalf, cfgLimDouble, scTrendOnly])
    (by norm_num [cfgLimHalf, cfgLimDouble, scTrendOnly])
    (by norm_num [cfgLimHalf, cfgLimDouble, scTrendOnly])
    (by norm_num [cfgLimHalf, cfgLimDouble, scTrendOnly])
    (by norm_num [cfgLimHalf, cfgLimDouble, scTrendOnly])
    (by norm_num [cfgLimHalf, cfgLimDouble, scTrendOnly])
    (by norm_num [cfgLimHalf, cfgLimDouble, scTrendOnly])
    (by norm_num [cfgLimHalf, cfgLimDouble, scTrendOnly])
    (by norm_num [cfgLimHalf, cfgLimDouble])
    (by norm_num [cfgLimHalf, cfgLimDouble])
  exact ⟨h.1, h.2.1⟩
